import Mathlib

/-!
Shallow embedding of the expense-tracker persistence and query contract
(`src/data_handler.py` — the Store / `DataHandler`, and
`src/expense_manager.py` — the Ledger / `ExpenseManager`).

Modelling conventions:
* dates are `YYYY-MM-DD` strings as the presentation layer supplies them,
  ordered lexicographically (which coincides with chronological order for
  this format, matching the backend's `ORDER BY date` semantics);
* currency amounts are `ℚ`, the exact idealisation of the decimal values
  the code stores;
* the `expenses` table is a list of rows with database-assigned ids plus a
  fresh-id counter;
* a backend error during an SQL statement is injected as a `Bool` flag per
  statement (`true` = the backend raises); every `try/except` block of the
  source catches it, so the embedded operation is a total function whose
  result on `true` is the defensive fallback of the `except` branch;
* `pandas` DataFrames are lists of typed records in display order; the
  `delete_expense` path that can raise `IndexError` out of the component
  (`df.iloc[index]` with `index < -len`) returns `none`, every normally
  returning path returns `some`;
* side-effecting Store calls made by a Ledger operation are recorded in a
  `StoreCall` trace so that "no store call is made" is a statement about
  the result.
-/

/-- One persisted row of the `expenses` table, id included. -/
structure Row where
  id : Nat
  date : String
  amount : ℚ
  category : String
  description : String
deriving DecidableEq

/-- One expense record as surfaced without the identifier column:
`(Date, Amount, Category, Description)`. -/
structure Expense where
  date : String
  amount : ℚ
  category : String
  description : String
deriving DecidableEq

/-- Projection dropping the `id` column
(`df[['date', 'amount', 'category', 'description']]` in `load_data`). -/
def Row.toExpense (r : Row) : Expense :=
  ⟨r.date, r.amount, r.category, r.description⟩

/-- The database state: the rows of the single `expenses` table (in
insertion order) and the next id the backend will assign. -/
structure DB where
  rows : List Row
  nextId : Nat
deriving DecidableEq

/-- Mutating SQL statements a Ledger operation can issue against the Store. -/
inductive StoreCall where
  | insert (date : String) (amount : ℚ) (category description : String)
  | deleteById (id : Nat)
deriving DecidableEq

/-- Lexicographic comparison of character lists: the total order under
which the date strings compare (chronological for `YYYY-MM-DD`) and under
which `pandas` sorts its `groupby` keys. -/
def charListLe : List Char → List Char → Bool
  | [], _ => true
  | _ :: _, [] => false
  | a :: as, b :: bs => if a < b then true else if b < a then false else charListLe as bs

/-- Ascending lexicographic order on strings. -/
def strLe (a b : String) : Prop := charListLe a.data b.data = true

instance : DecidableRel strLe :=
  fun a b => inferInstanceAs (Decidable (charListLe a.data b.data = true))

instance : IsTotal String strLe := by
  constructor
  intro a b
  unfold strLe
  generalize a.data = as
  generalize b.data = bs
  induction as generalizing bs with
  | nil => left; rfl
  | cons x xs ih =>
    cases bs with
    | nil => right; rfl
    | cons y ys =>
      rcases lt_trichotomy x y with h | h | h
      · left; simp [charListLe, h]
      · subst h
        rcases ih ys with h2 | h2
        · left; simp [charListLe, lt_irrefl, h2]
        · right; simp [charListLe, lt_irrefl, h2]
      · right; simp [charListLe, h]

instance : IsTrans String strLe := by
  constructor
  intro a b c
  unfold strLe
  generalize a.data = as
  generalize b.data = bs
  generalize c.data = cs
  induction as generalizing bs cs with
  | nil => intro _ _; rfl
  | cons x xs ih =>
    intro h1 h2
    cases bs with
    | nil => simp [charListLe] at h1
    | cons y ys =>
      cases cs with
      | nil => simp [charListLe] at h2
      | cons z zs =>
        by_cases hxy : x < y
        · by_cases hyz : y < z
          · simp [charListLe, lt_trans hxy hyz]
          · by_cases hzy : z < y
            · simp [charListLe, hyz, hzy] at h2
            · have hyzeq : y = z := le_antisymm (not_lt.mp hzy) (not_lt.mp hyz)
              subst hyzeq
              simp [charListLe, hxy]
        · by_cases hyx : y < x
          · simp [charListLe, hxy, hyx] at h1
          · have hxyeq : x = y := le_antisymm (not_lt.mp hyx) (not_lt.mp hxy)
            subst hxyeq
            simp only [charListLe, lt_irrefl, if_neg (lt_irrefl x), if_false] at h1
            by_cases hxz : x < z
            · simp [charListLe, hxz]
            · by_cases hzx : z < x
              · simp [charListLe, hxz, hzx] at h2
              · have hxzeq : x = z := le_antisymm (not_lt.mp hzx) (not_lt.mp hxz)
                subst hxzeq
                simp only [charListLe, lt_irrefl, if_neg (lt_irrefl x), if_false] at h2 ⊢
                exact ih ys zs h1 h2

/-- `ORDER BY date DESC` on rows: `a` precedes `b` when `b.date ≤ a.date`. -/
def rowDateGe (a b : Row) : Prop := strLe b.date a.date

instance : DecidableRel rowDateGe :=
  fun a b => inferInstanceAs (Decidable (charListLe b.date.data a.date.data = true))

instance : IsTotal Row rowDateGe := ⟨fun a b => total_of strLe b.date a.date⟩

instance : IsTrans Row rowDateGe :=
  ⟨fun a b c h1 h2 => IsTrans.trans (r := strLe) c.date b.date a.date h2 h1⟩

/-- Date-descending order on id-less expense records. -/
def expDateGe (a b : Expense) : Prop := strLe b.date a.date

/-- Descending order on `(Category, Total)` rows by total
(`sort_values(by='Total', ascending=False)`). -/
def totGe (a b : String × ℚ) : Prop := b.2 ≤ a.2

instance : DecidableRel totGe := fun a b => inferInstanceAs (Decidable (b.2 ≤ a.2))

instance : IsTotal (String × ℚ) totGe := ⟨fun a b => le_total b.2 a.2⟩

instance : IsTrans (String × ℚ) totGe := ⟨fun _ _ _ h1 h2 => le_trans h2 h1⟩

/-- `SELECT * FROM expenses ORDER BY date DESC`, rows with ids. -/
def selectAllByDateDesc (db : DB) : List Row :=
  List.insertionSort rowDateGe db.rows

/-- `DataHandler.load_data`: select all rows date-descending, drop the id
column, rename to `(Date, Amount, Category, Description)`; on any backend
error return the empty frame with those four columns. -/
def load_data (fail : Bool) (db : DB) : List Expense :=
  if fail then []
  else (selectAllByDateDesc db).map Row.toExpense

/-- The column list `save_data` requires of its input frame. -/
def expected_columns : List String := ["Date", "Amount", "Category", "Description"]

/-- Database id assignment for the bulk insert of `save_data`. -/
def assignIds (n : Nat) : List Expense → List Row
  | [] => []
  | e :: es => ⟨n, e.date, e.amount, e.category, e.description⟩ :: assignIds (n + 1) es

/-- `DataHandler.save_data`: checks the expected columns are present
(raising, hence returning `false`, before any SQL otherwise), then
`TRUNCATE TABLE expenses` committed in its own connection, then a bulk
append via `to_sql`.  `failTrunc` injects a backend error into the
truncate statement (caught, table unchanged since the truncate did not
commit); `failIns` injects one into the bulk insert (caught, but the
truncate has already committed, so the table is left empty). -/
def save_data (cols : List String) (records : List Expense)
    (failTrunc failIns : Bool) (db : DB) : Bool × DB :=
  if ¬ expected_columns.all (fun c => cols.contains c) then (false, db)
  else if failTrunc then (false, db)
  else if failIns then (false, { rows := [], nextId := db.nextId })
  else (true, { rows := assignIds db.nextId records,
                nextId := db.nextId + records.length })

/-- `DataHandler.add_expense`: `INSERT INTO expenses (date, amount,
category, description) VALUES (...)`; `false` on backend error. -/
def dh_add_expense (fail : Bool) (date : String) (amount : ℚ)
    (category description : String) (db : DB) : Bool × DB :=
  if fail then (false, db)
  else (true, { rows := db.rows ++ [⟨db.nextId, date, amount, category, description⟩],
                nextId := db.nextId + 1 })

/-- `DataHandler.delete_expense_by_id`: `DELETE FROM expenses WHERE id = :id`;
`false` on backend error, `true` otherwise (also when no row matched). -/
def delete_expense_by_id (fail : Bool) (expense_id : Nat) (db : DB) : Bool × DB :=
  if fail then (false, db)
  else (true, { rows := db.rows.filter (fun r => r.id ≠ expense_id),
                nextId := db.nextId })

/-- `ExpenseManager.get_expenses`: `load_data` verbatim. -/
def get_expenses (fail : Bool) (db : DB) : List Expense :=
  load_data fail db

/-- `ExpenseManager.get_expenses_with_ids`: `SELECT id, date, amount,
category, description FROM expenses ORDER BY date DESC`; on any error the
empty frame with the five columns. -/
def get_expenses_with_ids (fail : Bool) (db : DB) : List Row :=
  if fail then [] else selectAllByDateDesc db

/-- `ExpenseManager.add_expense`: Python truthiness validation
(`if not date or not amount or not category or not description`): an empty
string is falsy, the number `0` is falsy; otherwise `float(amount)` (the
identity on the already-numeric model) and delegation to
`DataHandler.add_expense`.  The trace records the insert issued. -/
def mgr_add_expense (fail : Bool) (date : String) (amount : ℚ)
    (category description : String) (db : DB) : Bool × DB × List StoreCall :=
  if date = "" ∨ amount = 0 ∨ category = "" ∨ description = "" then (false, db, [])
  else
    ((dh_add_expense fail date amount category description db).1,
     (dh_add_expense fail date amount category description db).2,
     [StoreCall.insert date amount category description])

/-- `ExpenseManager.delete_expense`: re-query the table with ids
(date-descending), return `False` if the frame is empty or `index >= len`,
otherwise resolve `df.iloc[index]` (Python semantics: a negative `index`
counts from the end; `iloc` raises `IndexError` when `index < -len`, which
escapes the method — modelled as `none`) and delete that row by id. -/
def mgr_delete_expense (failLoad failDel : Bool) (index : Int) (db : DB) :
    Option (Bool × DB × List StoreCall) :=
  let dfIds := get_expenses_with_ids failLoad db
  if dfIds.isEmpty ∨ (dfIds.length : Int) ≤ index then some (false, db, [])
  else
    let pos : Int := if index < 0 then (dfIds.length : Int) + index else index
    if h : 0 ≤ pos ∧ pos.toNat < dfIds.length then
      let r := dfIds.get ⟨pos.toNat, h.2⟩
      some ((delete_expense_by_id failDel r.id db).1,
            (delete_expense_by_id failDel r.id db).2,
            [StoreCall.deleteById r.id])
    else none

/-- `ExpenseManager.filter_expenses`: start from `get_expenses()`; return
an empty frame unchanged; otherwise apply each supplied bound in turn
(`if start_date:` / `if end_date:` — a date value is always truthy, so
supplied means `some`; `if categories and len(categories) > 0` — skipped
when absent or empty; `if min_amount is not None` / `if max_amount is not
None`). -/
def filter_expenses (fail : Bool) (start_date end_date : Option String)
    (categories : Option (List String)) (min_amount max_amount : Option ℚ)
    (db : DB) : List Expense :=
  let df0 := get_expenses fail db
  if df0.isEmpty then df0
  else
    let df1 := match start_date with
      | some d => df0.filter (fun e => strLe d e.date)
      | none => df0
    let df2 := match end_date with
      | some d => df1.filter (fun e => strLe e.date d)
      | none => df1
    let df3 := match categories with
      | some cs => if cs.length > 0 then df2.filter (fun e => cs.contains e.category) else df2
      | none => df2
    let df4 := match min_amount with
      | some m => df3.filter (fun e => m ≤ e.amount)
      | none => df3
    let df5 := match max_amount with
      | some m => df4.filter (fun e => e.amount ≤ m)
      | none => df4
    df5

/-- The conjunction of the supplied filter bounds, an omitted bound not
applied and an absent-or-empty category set skipped — the predicate the
specification describes for `filterExpenses`. -/
def matchesFilters (start_date end_date : Option String)
    (categories : Option (List String)) (min_amount max_amount : Option ℚ)
    (e : Expense) : Bool :=
  (match start_date with | some d => decide (strLe d e.date) | none => true) &&
  (match end_date with | some d => decide (strLe e.date d) | none => true) &&
  (match categories with
    | some cs => if cs.length > 0 then cs.contains e.category else true
    | none => true) &&
  (match min_amount with | some m => decide (m ≤ e.amount) | none => true) &&
  (match max_amount with | some m => decide (e.amount ≤ m) | none => true)

/-- Sum of the amounts of the expenses of category `c` in `df`
(`groupby('Category')['Amount'].sum()` for one group). -/
def categorySum (df : List Expense) (c : String) : ℚ :=
  ((df.filter (fun e => e.category = c)).map Expense.amount).sum

/-- `ExpenseManager.get_total_by_category`: empty `(Category, Total)` frame
when there are no expenses; otherwise group by category (`groupby` collects
the distinct keys in ascending order), sum the amounts per group, and sort
the resulting rows by total descending. -/
def get_total_by_category (fail : Bool) (db : DB) : List (String × ℚ) :=
  let df := get_expenses fail db
  if df.isEmpty then []
  else
    let cats := List.insertionSort strLe (df.map Expense.category).dedup
    let totals := cats.map (fun c => (c, categorySum df c))
    List.insertionSort totGe totals

/-! ### Helper lemmas -/

theorem load_data_false (db : DB) :
    load_data false db = (List.insertionSort rowDateGe db.rows).map Row.toExpense := rfl

theorem selectAll_length (db : DB) :
    (selectAllByDateDesc db).length = db.rows.length :=
  List.length_insertionSort rowDateGe db.rows

theorem assignIds_map_toExpense (es : List Expense) : ∀ n,
    (assignIds n es).map Row.toExpense = es := by
  induction es with
  | nil => intro n; rfl
  | cons e es ih => intro n; simp [assignIds, Row.toExpense, ih]

theorem filter_filter_comm {α : Type} (p q : α → Bool) (l : List α) :
    (l.filter p).filter q = l.filter fun a => p a && q a := by
  rw [List.filter_filter]
  exact List.filter_congr fun x _ => Bool.and_comm (q x) (p x)

/-! ### Claim theorems -/

/-- Claim C4: `loadAll` returns exactly the persisted records sorted by date
descending, projected to `(date, amount, category, description)` with the
identifier omitted. -/
theorem load_data_sorted_projection (db : DB) :
    (load_data false db).Perm (db.rows.map Row.toExpense) ∧
    List.Sorted expDateGe (load_data false db) := by
  rw [load_data_false]
  constructor
  · exact (List.perm_insertionSort rowDateGe db.rows).map Row.toExpense
  · exact List.Pairwise.map Row.toExpense (fun a b h => h)
      (List.sorted_insertionSort rowDateGe db.rows)

/-- Claim C1: `deleteExpense(i)` on an empty table, or with `i` at least the
length of the date-descending listing, returns `false`, leaves the table
unchanged, and issues no store delete call. -/
theorem delete_expense_out_of_range (failLoad failDel : Bool) (i : Int) (db : DB)
    (h : db.rows = [] ∨ (db.rows.length : Int) ≤ i) :
    mgr_delete_expense failLoad failDel i db = some (false, db, []) := by
  unfold mgr_delete_expense
  rcases h with h | h
  · have hids : get_expenses_with_ids failLoad db = [] := by
      cases failLoad <;> simp [get_expenses_with_ids, selectAllByDateDesc, h]
    simp [hids]
  · cases failLoad with
    | true => simp [get_expenses_with_ids]
    | false =>
      have hlen : (get_expenses_with_ids false db).length = db.rows.length := by
        simp [get_expenses_with_ids, selectAll_length]
      rw [if_pos]
      right
      rw [hlen]
      exact h

/-- Witness for C1 at a concrete table and position. -/
theorem delete_expense_out_of_range_witness :
    mgr_delete_expense false false 3 ⟨[⟨1, "2024-01-01", 5, "Food", "lunch"⟩], 2⟩ =
      some (false, ⟨[⟨1, "2024-01-01", 5, "Food", "lunch"⟩], 2⟩, []) :=
  delete_expense_out_of_range false false 3 _ (Or.inr (by decide))

/-- Claim C10: on a non-empty table of `n` records, `deleteExpense(i)` with
`-n ≤ i ≤ -1` does not fail the range check: it resolves display position
`n + i` of the date-descending listing, issues the store delete for that
record's identifier, and returns the store's result. -/
theorem delete_expense_negative_index (failDel : Bool) (i : Int) (db : DB)
    (hne : db.rows ≠ []) (hlo : -(db.rows.length : Int) ≤ i) (hhi : i ≤ -1) :
    ∃ r : Row,
      (get_expenses_with_ids false db)[((db.rows.length : Int) + i).toNat]? = some r ∧
      mgr_delete_expense false failDel i db =
        some ((delete_expense_by_id failDel r.id db).1,
              (delete_expense_by_id failDel r.id db).2,
              [StoreCall.deleteById r.id]) := by
  have hlen : (get_expenses_with_ids false db).length = db.rows.length := by
    simp [get_expenses_with_ids, selectAll_length]
  have hn : 0 < db.rows.length := List.length_pos.mpr hne
  have hik : ((db.rows.length : Int) + i).toNat < (get_expenses_with_ids false db).length := by
    rw [hlen]; omega
  refine ⟨(get_expenses_with_ids false db).get ⟨((db.rows.length : Int) + i).toNat, hik⟩,
    ?_, ?_⟩
  · rw [List.getElem?_eq_getElem hik]; rfl
  · have hcond : ¬((get_expenses_with_ids false db).isEmpty = true ∨
        ((get_expenses_with_ids false db).length : Int) ≤ i) := by
      rw [not_or]
      constructor
      · rw [List.isEmpty_iff]
        intro hc
        rw [hc] at hlen
        simp at hlen
        omega
      · rw [hlen]; omega
    have hif : (if i < 0 then ((get_expenses_with_ids false db).length : Int) + i else i)
        = (db.rows.length : Int) + i := by
      rw [if_pos (show i < 0 by omega), hlen]
    unfold mgr_delete_expense
    rw [if_neg hcond]
    simp only [hif]
    rw [dif_pos (And.intro (by omega) hik)]

/-- Witness for C10: on a two-row table, `deleteExpense(-1)` targets the last
row of the date-descending listing and returns the store's result. -/
theorem delete_expense_negative_index_witness :
    ∃ r : Row,
      (get_expenses_with_ids false ⟨[⟨1, "2024-01-01", 5, "Food", "lunch"⟩, ⟨2, "2024-01-02", 7, "Transportation", "bus"⟩], 3⟩)[(((2 : Nat) : Int) + (-1)).toNat]? = some r ∧
      mgr_delete_expense false false (-1) ⟨[⟨1, "2024-01-01", 5, "Food", "lunch"⟩, ⟨2, "2024-01-02", 7, "Transportation", "bus"⟩], 3⟩ =
        some ((delete_expense_by_id false r.id ⟨[⟨1, "2024-01-01", 5, "Food", "lunch"⟩, ⟨2, "2024-01-02", 7, "Transportation", "bus"⟩], 3⟩).1,
              (delete_expense_by_id false r.id ⟨[⟨1, "2024-01-01", 5, "Food", "lunch"⟩, ⟨2, "2024-01-02", 7, "Transportation", "bus"⟩], 3⟩).2,
              [StoreCall.deleteById r.id]) :=
  delete_expense_negative_index false (-1)
    ⟨[⟨1, "2024-01-01", 5, "Food", "lunch"⟩, ⟨2, "2024-01-02", 7, "Transportation", "bus"⟩], 3⟩
    (by decide) (by decide) (by decide)

/-- Claim C3: every Store operation is defensive — with a backend error
injected, `load_data` and `get_expenses_with_ids` return the empty frame,
`add_expense` and `delete_expense_by_id` return `false` with the table
unchanged, and `save_data` returns `false`; none of them raises. -/
theorem store_ops_defensive (db : DB) (d : String) (a : ℚ) (c s : String) (eid : Nat)
    (cols : List String) (recs : List Expense) (ft fi : Bool) :
    load_data true db = [] ∧
    get_expenses_with_ids true db = [] ∧
    dh_add_expense true d a c s db = (false, db) ∧
    delete_expense_by_id true eid db = (false, db) ∧
    ((ft = true ∨ fi = true) → (save_data cols recs ft fi db).1 = false) := by
  refine ⟨rfl, rfl, rfl, rfl, ?_⟩
  intro h
  unfold save_data
  split_ifs <;> simp_all

/-- Witness for C3: the injected truncate failure makes `save_data` report
failure on a concrete state. -/
theorem store_ops_defensive_witness :
    (save_data ["Date", "Amount", "Category", "Description"] [] true false ⟨[], 0⟩).1 = false :=
  (store_ops_defensive ⟨[], 0⟩ "" 0 "" "" 0
      ["Date", "Amount", "Category", "Description"] [] true false).2.2.2.2 (Or.inl rfl)

/-- Claim C7: `addExpense` returns `false` with no store call exactly when
some argument is missing/empty in the Python-truthiness sense (empty string,
amount `0`); otherwise it delegates to `Store.insert` with the given
arguments and returns its result. -/
theorem add_expense_validation (fail : Bool) (d c s : String) (a : ℚ) (db : DB) :
    (mgr_add_expense fail d a c s db = (false, db, []) ↔
      (d = "" ∨ a = 0 ∨ c = "" ∨ s = "")) ∧
    (¬(d = "" ∨ a = 0 ∨ c = "" ∨ s = "") →
      mgr_add_expense fail d a c s db =
        ((dh_add_expense fail d a c s db).1, (dh_add_expense fail d a c s db).2,
         [StoreCall.insert d a c s])) := by
  constructor
  · constructor
    · intro h
      by_contra hv
      rw [mgr_add_expense, if_neg hv] at h
      simp at h
    · intro hv
      rw [mgr_add_expense, if_pos hv]
  · intro hv
    rw [mgr_add_expense, if_neg hv]

/-- Witness for C7: with all four arguments non-empty the insert is issued. -/
theorem add_expense_validation_witness :
    mgr_add_expense false "2024-01-01" 5 "Food" "lunch" ⟨[], 0⟩ =
      ((dh_add_expense false "2024-01-01" 5 "Food" "lunch" ⟨[], 0⟩).1,
       (dh_add_expense false "2024-01-01" 5 "Food" "lunch" ⟨[], 0⟩).2,
       [StoreCall.insert "2024-01-01" 5 "Food" "lunch"]) :=
  (add_expense_validation false "2024-01-01" "Food" "lunch" 5 ⟨[], 0⟩).2 (by decide)

/-- Claim C9: `addExpense` with amount `0` returns `false` and makes no
store call (Python truthiness rejects `0`), while a negative amount passes
validation and is handed to the store. -/
theorem add_expense_zero_amount (fail : Bool) (d c s : String) (db : DB) :
    mgr_add_expense fail d 0 c s db = (false, db, []) ∧
    (∀ a : ℚ, a < 0 → d ≠ "" → c ≠ "" → s ≠ "" →
      mgr_add_expense fail d a c s db =
        ((dh_add_expense fail d a c s db).1, (dh_add_expense fail d a c s db).2,
         [StoreCall.insert d a c s])) := by
  constructor
  · rw [mgr_add_expense, if_pos (Or.inr (Or.inl rfl))]
  · intro a ha h1 h2 h3
    rw [mgr_add_expense, if_neg]
    push_neg
    exact ⟨h1, ne_of_lt ha, h2, h3⟩

/-- Witness for C9: amount `0` is rejected, amount `-3` reaches the store. -/
theorem add_expense_zero_amount_witness :
    mgr_add_expense false "2024-01-01" 0 "Food" "lunch" ⟨[], 0⟩ = (false, ⟨[], 0⟩, []) ∧
    mgr_add_expense false "2024-01-01" (-3) "Food" "lunch" ⟨[], 0⟩ =
      ((dh_add_expense false "2024-01-01" (-3) "Food" "lunch" ⟨[], 0⟩).1,
       (dh_add_expense false "2024-01-01" (-3) "Food" "lunch" ⟨[], 0⟩).2,
       [StoreCall.insert "2024-01-01" (-3) "Food" "lunch"]) :=
  ⟨(add_expense_zero_amount false "2024-01-01" "Food" "lunch" ⟨[], 0⟩).1,
   (add_expense_zero_amount false "2024-01-01" "Food" "lunch" ⟨[], 0⟩).2
     (-3) (by norm_num) (by decide) (by decide) (by decide)⟩

/-- Claim C8: `filterExpenses` with every bound omitted returns the table of
`getExpenses()` unchanged, and returns an empty table unchanged. -/
theorem filter_expenses_no_bounds (fail : Bool) (db : DB) :
    filter_expenses fail none none none none none db = get_expenses fail db ∧
    (get_expenses fail db = [] → filter_expenses fail none none none none none db = []) := by
  have h : filter_expenses fail none none none none none db = get_expenses fail db := by
    unfold filter_expenses
    by_cases hc : (get_expenses fail db).isEmpty <;> simp [hc]
  exact ⟨h, fun he => by rw [h, he]⟩

/-- Witness for C8 on the empty table. -/
theorem filter_expenses_no_bounds_witness :
    filter_expenses false none none none none none ⟨[], 0⟩ = get_expenses false ⟨[], 0⟩ ∧
    filter_expenses false none none none none none ⟨[], 0⟩ = [] :=
  ⟨(filter_expenses_no_bounds false ⟨[], 0⟩).1,
   (filter_expenses_no_bounds false ⟨[], 0⟩).2 rfl⟩

/-- Claim C5: `filterExpenses` returns exactly the rows of `getExpenses()`
satisfying the conjunction of the supplied bounds, each omitted bound not
applied and an absent-or-empty category set skipped. -/
theorem filter_expenses_conjunction (fail : Bool) (sd ed : Option String)
    (cats : Option (List String)) (mn mx : Option ℚ) (db : DB) :
    filter_expenses fail sd ed cats mn mx db =
      (get_expenses fail db).filter (fun e => matchesFilters sd ed cats mn mx e) := by
  unfold filter_expenses
  by_cases hc : (get_expenses fail db).isEmpty = true
  · rw [List.isEmpty_iff] at hc
    simp [hc]
  · simp only [if_neg hc]
    rcases cats with _ | cs
    · rcases sd with _ | d1 <;> rcases ed with _ | d2 <;>
        rcases mn with _ | m1 <;> rcases mx with _ | m2 <;>
        simp [matchesFilters, filter_filter_comm,
          Bool.and_comm, Bool.and_left_comm, Bool.and_assoc]
    · by_cases hcs : cs.length > 0 <;>
        rcases sd with _ | d1 <;> rcases ed with _ | d2 <;>
          rcases mn with _ | m1 <;> rcases mx with _ | m2 <;>
          simp [matchesFilters, filter_filter_comm, hcs,
            Bool.and_comm, Bool.and_left_comm, Bool.and_assoc]

theorem sum_map_filter_split (p : Expense → Bool) (df : List Expense) :
    ((df.filter p).map Expense.amount).sum
      + ((df.filter (fun e => !p e)).map Expense.amount).sum
      = (df.map Expense.amount).sum := by
  calc ((df.filter p).map Expense.amount).sum
        + ((df.filter (fun e => !p e)).map Expense.amount).sum
      = ((df.filter p).map Expense.amount ++ (df.filter (fun e => !p e)).map Expense.amount).sum := by
        rw [List.sum_append]
    _ = ((df.filter p ++ df.filter (fun e => !p e)).map Expense.amount).sum := by
        rw [List.map_append]
    _ = (df.map Expense.amount).sum :=
        ((List.filter_append_perm p df).map Expense.amount).sum_eq

theorem categorySum_filter_ne (c c' : String) (hne : c' ≠ c) (df : List Expense) :
    categorySum (df.filter (fun e => !(decide (e.category = c)))) c' = categorySum df c' := by
  unfold categorySum
  rw [List.filter_filter]
  have hfeq : List.filter (fun a => decide (a.category = c') && !decide (a.category = c)) df
      = List.filter (fun e => decide (e.category = c')) df := by
    apply List.filter_congr
    intro e _
    by_cases he : e.category = c'
    · simp [he, hne]
    · simp [he]
  rw [hfeq]

theorem categorySum_partition (keys : List String) (df : List Expense)
    (hnd : keys.Nodup) (hcov : ∀ e ∈ df, e.category ∈ keys) :
    (keys.map (fun c => categorySum df c)).sum = (df.map Expense.amount).sum := by
  induction keys generalizing df with
  | nil =>
    cases df with
    | nil => simp
    | cons e es => exact absurd (hcov e (by simp)) (by simp)
  | cons c ks ih =>
    simp only [List.map_cons, List.sum_cons]
    have hnotmem : c ∉ ks := (List.nodup_cons.mp hnd).1
    have hnd2 : ks.Nodup := (List.nodup_cons.mp hnd).2
    have hmapeq : ks.map (fun c2 => categorySum df c2)
        = ks.map (fun c2 => categorySum (df.filter (fun e => !(decide (e.category = c)))) c2) := by
      apply List.map_congr_left
      intro c2 hc2
      exact (categorySum_filter_ne c c2 (fun h => hnotmem (h ▸ hc2)) df).symm
    rw [hmapeq, ih (df.filter (fun e => !(decide (e.category = c)))) hnd2]
    · exact sum_map_filter_split (fun e => decide (e.category = c)) df
    · intro e he
      have hin := List.mem_of_mem_filter he
      have hprop := List.of_mem_filter he
      simp only [Bool.not_eq_true', decide_eq_false_iff_not] at hprop
      have := hcov e hin
      simp only [List.mem_cons] at this
      exact this.resolve_left hprop

/-- Claim C6: `totalByCategory` has one row per distinct category, each total
the sum of that category's amounts, rows sorted descending by total, the
totals summing to the sum of all amounts of `getExpenses()`, and an empty
result on an empty table. -/
theorem total_by_category_spec (db : DB) :
    ((get_total_by_category false db).map Prod.fst).Perm
      ((get_expenses false db).map Expense.category).dedup ∧
    (∀ p ∈ get_total_by_category false db,
      p.2 = categorySum (get_expenses false db) p.1) ∧
    List.Sorted totGe (get_total_by_category false db) ∧
    ((get_total_by_category false db).map Prod.snd).sum
      = ((get_expenses false db).map Expense.amount).sum ∧
    (get_expenses false db = [] → get_total_by_category false db = []) := by
  by_cases hdf : (get_expenses false db).isEmpty = true
  · rw [List.isEmpty_iff] at hdf
    refine ⟨?_, ?_, ?_, ?_, ?_⟩ <;> simp [get_total_by_category, hdf]
  · have hres : get_total_by_category false db
        = List.insertionSort totGe
            ((List.insertionSort strLe ((get_expenses false db).map Expense.category).dedup).map
              (fun c => (c, categorySum (get_expenses false db) c))) := by
      simp [get_total_by_category, hdf]
    have hperm : (get_total_by_category false db).Perm
        ((List.insertionSort strLe ((get_expenses false db).map Expense.category).dedup).map
          (fun c => (c, categorySum (get_expenses false db) c))) := by
      rw [hres]
      exact List.perm_insertionSort totGe _
    have hcatperm : (List.insertionSort strLe
          ((get_expenses false db).map Expense.category).dedup).Perm
        ((get_expenses false db).map Expense.category).dedup :=
      List.perm_insertionSort strLe _
    refine ⟨?_, ?_, ?_, ?_, ?_⟩
    · have h1 := hperm.map Prod.fst
      have heq : ((List.insertionSort strLe ((get_expenses false db).map Expense.category).dedup).map
            (fun c => (c, categorySum (get_expenses false db) c))).map Prod.fst
          = List.insertionSort strLe ((get_expenses false db).map Expense.category).dedup := by
        rw [List.map_map]
        exact List.map_id _
      rw [heq] at h1
      exact h1.trans hcatperm
    · intro p hp
      have hp2 := hperm.mem_iff.mp hp
      rcases List.mem_map.mp hp2 with ⟨c, _, hceq⟩
      rw [← hceq]
    · rw [hres]
      exact List.sorted_insertionSort totGe _
    · have h1 := (hperm.map Prod.snd).sum_eq
      have heq2 : ((List.insertionSort strLe ((get_expenses false db).map Expense.category).dedup).map
            (fun c => (c, categorySum (get_expenses false db) c))).map Prod.snd
          = (List.insertionSort strLe ((get_expenses false db).map Expense.category).dedup).map
              (fun c => categorySum (get_expenses false db) c) := by
        rw [List.map_map]
        rfl
      rw [heq2] at h1
      have h2 := ((hcatperm.map (fun c => categorySum (get_expenses false db) c))).sum_eq
      rw [h1, h2]
      apply categorySum_partition
      · exact List.nodup_dedup _
      · intro e he
        exact List.mem_dedup.mpr (List.mem_map_of_mem Expense.category he)
    · intro he
      rw [List.isEmpty_iff] at hdf
      exact absurd he hdf

/-- Witness for C6 on the empty table. -/
theorem total_by_category_spec_witness :
    get_total_by_category false ⟨[], 0⟩ = [] :=
  (total_by_category_spec ⟨[], 0⟩).2.2.2.2 rfl

/-- Counterexample to C2 as stated: with the bulk insert failing after the
truncate has committed, `save_data` returns `false` yet the table's prior
contents are gone. -/
theorem save_data_atomicity_cex :
    (save_data ["Date", "Amount", "Category", "Description"] [] false true
        ⟨[⟨1, "2024-01-01", 5, "Food", "lunch"⟩], 2⟩).1 = false ∧
    (save_data ["Date", "Amount", "Category", "Description"] [] false true
        ⟨[⟨1, "2024-01-01", 5, "Food", "lunch"⟩], 2⟩).2 ≠ ⟨[⟨1, "2024-01-01", 5, "Food", "lunch"⟩], 2⟩ := by
  decide

/-- Claim C2 (amended): `save_data` clears then bulk-inserts; it returns
`true` exactly when the column check, the truncate, and the bulk insert all
succeed, in which case the stored records are the given ones; a column-check
or truncate failure leaves the table unchanged, while a bulk-insert failure
after the committed truncate leaves the table empty. -/
theorem save_data_clear_then_insert (cols : List String) (records : List Expense)
    (failTrunc failIns : Bool) (db : DB) :
    ((save_data cols records failTrunc failIns db).1 = true ↔
      (expected_columns.all (fun c => cols.contains c) = true ∧
        failTrunc = false ∧ failIns = false)) ∧
    ((save_data cols records failTrunc failIns db).1 = true →
      ((save_data cols records failTrunc failIns db).2.rows).map Row.toExpense = records) ∧
    ((¬ expected_columns.all (fun c => cols.contains c) = true ∨ failTrunc = true) →
      save_data cols records failTrunc failIns db = (false, db)) ∧
    (expected_columns.all (fun c => cols.contains c) = true → failTrunc = false →
      failIns = true →
      save_data cols records failTrunc failIns db = (false, ⟨[], db.nextId⟩)) := by
  unfold save_data
  generalize hb : expected_columns.all (fun c => cols.contains c) = b
  cases b <;> cases failTrunc <;> cases failIns <;>
    simp [assignIds_map_toExpense]

/-- Witness for C2 (amended): a successful bulk replace stores exactly the
given records. -/
theorem save_data_clear_then_insert_witness :
    ((save_data ["Date", "Amount", "Category", "Description"]
        [⟨"2024-01-01", 5, "Food", "lunch"⟩] false false ⟨[⟨1, "2024-01-02", 3, "Transportation", "bus"⟩], 2⟩).2.rows).map
      Row.toExpense = [⟨"2024-01-01", 5, "Food", "lunch"⟩] :=
  (save_data_clear_then_insert ["Date", "Amount", "Category", "Description"]
      [⟨"2024-01-01", 5, "Food", "lunch"⟩] false false ⟨[⟨1, "2024-01-02", 3, "Transportation", "bus"⟩], 2⟩).2.1
    (by decide)
